import Mathlib

/-!
Verification of the GopherMark staged-mutation / atomic-commit subsystem.

The Go sources are shallowly embedded:
* the filesystem is a finite map from paths to byte lists (`Fs`), and each
  fallible OS call (`os.Open`/`os.Create`/`io.Copy`/`Sync`/`os.Rename`/
  `os.Remove`) either follows its success semantics or fails as dictated by
  an explicit environment of failure flags;
* the SQLite staging database is a pair of tables (`Db`), SQL statements
  become pure list transformations, `randomblob` GUIDs and
  `currentMicroseconds()` become explicit parameters;
* the external Liveness Guard (`isBrowserRunning`, a process-list scan) is
  an environment flag together with the detected process name.
-/

namespace GopherMark

/-! ## Filesystem model -/

/-- File contents, as a list of bytes. -/
abbrev Content := List Nat

/-- A filesystem: association list from path to file content. -/
abbrev Fs := List (String × Content)

def fsLookup : Fs → String → Option Content
  | [], _ => none
  | e :: fs, p => if e.1 = p then some e.2 else fsLookup fs p

def fsRemove : Fs → String → Fs
  | [], _ => []
  | e :: fs, p => if e.1 = p then fsRemove fs p else e :: fsRemove fs p

/-- Writing a file replaces any previous entry at that path. -/
def fsWrite (fs : Fs) (p : String) (c : Content) : Fs :=
  (p, c) :: fsRemove fs p

/-- Model of `os.Rename src dst`: atomic move, overwriting `dst`; fails if `src`
does not exist. -/
def osRename (fs : Fs) (src dst : String) : Option Fs :=
  match fsLookup fs src with
  | none => none
  | some c => some (fsWrite (fsRemove fs src) dst c)

theorem fsLookup_fsRemove (fs : Fs) (p q : String) :
    fsLookup (fsRemove fs p) q = if q = p then none else fsLookup fs q := by
  induction fs with
  | nil => simp [fsLookup, fsRemove]
  | cons e fs ih =>
    by_cases hep : e.1 = p
    · rw [fsRemove, if_pos hep, ih]
      by_cases hqp : q = p
      · rw [if_pos hqp, if_pos hqp]
      · rw [if_neg hqp, if_neg hqp, fsLookup, if_neg (fun heq => hqp (heq.symm.trans hep))]
    · rw [fsRemove, if_neg hep, fsLookup]
      by_cases heq : e.1 = q
      · have hqp : ¬ q = p := fun h => hep (heq.trans h)
        rw [if_pos heq, if_neg hqp, fsLookup, if_pos heq]
      · rw [if_neg heq, ih]
        by_cases hqp : q = p
        · rw [if_pos hqp, if_pos hqp]
        · rw [if_neg hqp, if_neg hqp, fsLookup, if_neg heq]

theorem fsLookup_fsWrite (fs : Fs) (p q : String) (c : Content) :
    fsLookup (fsWrite fs p c) q = if q = p then some c else fsLookup fs q := by
  by_cases hqp : q = p
  · rw [fsWrite, fsLookup, if_pos hqp.symm, if_pos hqp]
  · rw [fsWrite, fsLookup, if_neg (fun h => hqp h.symm), fsLookup_fsRemove,
      if_neg hqp, if_neg hqp]

/-! ## `copyFile` (staging.go lines 97-116)

`copyFile` opens the source, creates (truncates) the destination, copies the
bytes, then syncs.  The environment says which of these steps fails; when the
byte copy itself fails, `copiedBytes` bytes have already been written to the
destination. -/

structure CopyEnv where
  openSrcFails : Bool
  createDstFails : Bool
  copyFails : Bool
  copiedBytes : Nat
  syncFails : Bool

def copyFile (env : CopyEnv) (fs : Fs) (src dst : String) : Bool × Fs :=
  if env.openSrcFails then (false, fs)
  else
    match fsLookup fs src with
    | none => (false, fs)
    | some content =>
      if env.createDstFails then (false, fs)
      else if env.copyFails then (false, fsWrite fs dst (content.take env.copiedBytes))
      else if env.syncFails then (false, fsWrite fs dst content)
      else (true, fsWrite fs dst content)

/-! ## `CreateStaging` (staging.go lines 23-48) -/

structure StagingDB where
  originalPath : String
  stagingPath : String
  connOpen : Bool
  deriving DecidableEq

structure CreateEnv where
  copyEnv : CopyEnv
  openDbFails : Bool
  pragmaFails : Bool

/-- The deterministic staging file name built from the process id
(staging.go line 25). -/
def stagingName (pid : Nat) : String :=
  "gophermark-staging-" ++ toString pid ++ ".sqlite"

/-- Model of `CreateStaging`: copy the original into the temp dir, open the copy,
set WAL mode.  Note: when `copyFile` itself fails the partially created
copy is NOT removed (lines 27-29); the removal only happens on the
open-database and PRAGMA failure paths (lines 31-41). -/
def createStaging (env : CreateEnv) (tempDir : String) (pid : Nat)
    (originalPath : String) (fs : Fs) : Option StagingDB × Fs :=
  let stagingPath := tempDir ++ "/" ++ stagingName pid
  let r := copyFile env.copyEnv fs originalPath stagingPath
  if r.1 = false then (none, r.2)
  else if env.openDbFails then (none, fsRemove r.2 stagingPath)
  else if env.pragmaFails then (none, fsRemove r.2 stagingPath)
  else (some ⟨originalPath, stagingPath, true⟩, r.2)

/-! ## `Commit` (staging.go lines 54-76) -/

/-- The protocol steps, recorded as a trace in the order executed. -/
inductive CStep
  | liveness
  | closeConn
  | backup
  | swap
  | restore
  | cleanup
  deriving DecidableEq

/-- The distinct error kinds `Commit` can return (each is a distinct
`fmt.Errorf` message in the source).  There is no separate unrecoverable
kind: a failed swap returns `swapFailed` whether or not the
restore-from-backup succeeded. -/
inductive CommitErr
  | sourceLocked (process : String)
  | closeFailed
  | backupFailed
  | swapFailed
  deriving DecidableEq

structure CommitEnv where
  browserRunning : Bool
  browserName : String
  closeFails : Bool
  backupEnv : CopyEnv
  swapFails : Bool
  restoreFails : Bool
  removeBackupFails : Bool

structure CommitOutcome where
  result : Except CommitErr Unit
  fs : Fs
  connOpen : Bool
  trace : List CStep

def commit (env : CommitEnv) (s : StagingDB) (fs : Fs) : CommitOutcome :=
  if env.browserRunning then
    ⟨.error (.sourceLocked env.browserName), fs, s.connOpen, [.liveness]⟩
  else if env.closeFails then
    ⟨.error .closeFailed, fs, false, [.liveness, .closeConn]⟩
  else
    let backupPath := s.originalPath ++ ".backup"
    let r := copyFile env.backupEnv fs s.originalPath backupPath
    if r.1 = false then
      ⟨.error .backupFailed, r.2, false, [.liveness, .closeConn, .backup]⟩
    else
      let swapRes := if env.swapFails then none else osRename r.2 s.stagingPath s.originalPath
      match swapRes with
      | none =>
        -- swap failed: attempt the restore once; its error is discarded
        -- (the bare `os.Rename(backupPath, s.originalPath)` on line 69)
        let fs2 := if env.restoreFails then r.2
                   else (osRename r.2 backupPath s.originalPath).getD r.2
        ⟨.error .swapFailed, fs2, false, [.liveness, .closeConn, .backup, .swap, .restore]⟩
      | some fs2 =>
        -- cleanup: `os.Remove(backupPath)`, error ignored (line 73)
        let fs3 := if env.removeBackupFails then fs2 else fsRemove fs2 backupPath
        ⟨.ok (), fs3, false, [.liveness, .closeConn, .backup, .swap, .cleanup]⟩

/-! ## `Rollback` and `Close` (staging.go lines 78-95) -/

structure RollbackEnv where
  removeFails : Bool

/-- Model of `Rollback`: close the connection (error ignored), then `os.Remove` the
staging file.  Returns whether the remove succeeded. -/
def rollback (env : RollbackEnv) (s : StagingDB) (fs : Fs) : Bool × Fs :=
  if env.removeFails then (false, fs)
  else
    match fsLookup fs s.stagingPath with
    | none => (false, fs)
    | some _ => (true, fsRemove fs s.stagingPath)

structure CloseEnv where
  connCloseFails : Bool
  removeFails : Bool

/-- Model of `Close`: close the connection (propagating its error), then remove the
staging file only if `os.Stat` says it exists. -/
def closeStaging (env : CloseEnv) (s : StagingDB) (fs : Fs) : Bool × Fs :=
  if s.connOpen && env.connCloseFails then (false, fs)
  else
    match fsLookup fs s.stagingPath with
    | some _ => if env.removeFails then (false, fs) else (true, fsRemove fs s.stagingPath)
    | none => (true, fs)

/-- A staged mutation only ever writes the staging copy: the SQL connection
held by the Staging Store is open on `stagingPath` alone.  A sequence of
staged mutations is therefore a sequence of writes to that one path. -/
def stagedWrites (s : StagingDB) (cs : List Content) (fs : Fs) : Fs :=
  cs.foldl (fun f c => fsWrite f s.stagingPath c) fs

theorem fsLookup_stagedWrites (s : StagingDB) (cs : List Content) (fs : Fs)
    (q : String) (hq : q ≠ s.stagingPath) :
    fsLookup (stagedWrites s cs fs) q = fsLookup fs q := by
  induction cs generalizing fs with
  | nil => rfl
  | cons c cs ih =>
    simp only [stagedWrites, List.foldl_cons] at *
    rw [ih, fsLookup_fsWrite, if_neg hq]

/-! ## Database model

The two tables touched by the staging mutations (`moz_places` and
`moz_bookmarks`), with exactly the columns the Go code reads or writes. -/

structure PlaceRow where
  id : Int
  url : String
  title : String
  revHost : String
  hidden : Int
  typed : Int
  frecency : Int
  lastVisitDate : Int
  guid : String
  deriving DecidableEq

structure BookmarkRow where
  id : Int
  typ : Int
  fk : Option Int
  parent : Int
  position : Int
  title : Option String
  dateAdded : Int
  lastModified : Int
  guid : String
  deriving DecidableEq

structure Db where
  places : List PlaceRow
  bookmarks : List BookmarkRow
  deriving DecidableEq

/-- The rowid SQLite assigns to a fresh `INSERT`: one more than the largest
rowid in use (1 for an empty table). -/
def nextId (ids : List Int) : Int :=
  ids.foldl max 0 + 1

/-- SQL `MAX(...)` over a column: `NULL` (here `none`) on an empty set. -/
def sqlMax : List Int → Option Int
  | [] => none
  | x :: xs =>
    match sqlMax xs with
    | none => some x
    | some m => some (max x m)

/-- Model of `SELECT COALESCE(MAX(position), -1) FROM moz_bookmarks WHERE parent = ?`. -/
def maxPositionIn (bs : List BookmarkRow) (parent : Int) : Int :=
  (sqlMax ((bs.filter (fun b => b.parent == parent)).map (·.position))).getD (-1)

/-- Model of `SELECT id FROM moz_places WHERE url = ?` (first matching row). -/
def findPlaceByUrl : List PlaceRow → String → Option Int
  | [], _ => none
  | p :: ps, u => if p.url = u then some p.id else findPlaceByUrl ps u

/-! ## Single-statement mutations (staging.go lines 161-182)

`currentMicroseconds()` is modelled by the explicit `now` parameter. -/

/-- Model of `UPDATE moz_bookmarks SET title = ?, lastModified = ? WHERE id = ?`.
Note that `lastModified` is stamped unconditionally, whether or not the new
title equals the stored one. -/
def updateBookmarkTitle (db : Db) (bookmarkID : Int) (newTitle : String) (now : Int) : Db :=
  { db with
    bookmarks := db.bookmarks.map (fun r =>
      if r.id = bookmarkID then { r with title := some newTitle, lastModified := now } else r) }

/-- Model of `UPDATE moz_places SET url = ?, last_visit_date = ? WHERE id = ?`.
The place row's `last_visit_date` is stamped unconditionally; the bookmark
row (and its `lastModified`) is not touched. -/
def updateBookmarkURL (db : Db) (placeID : Int) (newURL : String) (now : Int) : Db :=
  { db with
    places := db.places.map (fun r =>
      if r.id = placeID then { r with url := newURL, lastVisitDate := now } else r) }

/-- Model of `DELETE FROM moz_bookmarks WHERE id = ?`. -/
def deleteBookmark (db : Db) (bookmarkID : Int) : Db :=
  { db with bookmarks := db.bookmarks.filter (fun r => !(r.id == bookmarkID)) }

/-- Model of `UPDATE moz_bookmarks SET parent = ?, position = ?, lastModified = ? WHERE id = ?`. -/
def moveBookmark (db : Db) (bookmarkID newParentID : Int) (newPosition : Int) (now : Int) : Db :=
  { db with
    bookmarks := db.bookmarks.map (fun r =>
      if r.id = bookmarkID then
        { r with parent := newParentID, position := newPosition, lastModified := now }
      else r) }

/-! ## The UI guards around the title/URL updates (ui/app.go `saveTitle`,
`saveURL`): the staging call is skipped when the new value equals the
value currently shown for the bookmark. -/

def uiSaveTitle (db : Db) (bookmarkID : Int) (current newTitle : String) (now : Int) : Db :=
  if newTitle ≠ current then updateBookmarkTitle db bookmarkID newTitle now else db

def uiSaveURL (db : Db) (placeID : Int) (current newURL : String) (now : Int) : Db :=
  if newURL ≠ current then updateBookmarkURL db placeID newURL now else db

/-! ## `AddBookmark` (staging.go lines 184-222)

Both phases run inside one transaction (`tx.Begin` ... `tx.Commit`, with a
deferred `tx.Rollback`): an error anywhere leaves the caller-visible
database exactly as it was.  The environment lists the statements that can
fail; the two `randomblob` GUIDs are environment-supplied. -/

structure AddEnv where
  beginFails : Bool
  insertPlaceFails : Bool
  maxPosFails : Bool
  insertBookmarkFails : Bool
  txCommitFails : Bool
  placeGuid : String
  bookmarkGuid : String

/-- The `moz_places` row inserted by phase (a):
`INSERT INTO moz_places (url, title, rev_host, hidden, typed, frecency,
last_visit_date, guid) VALUES (?, ?, '', 0, 0, -1, ?, ...)`. -/
def newPlaceRow (pid : Int) (url title : String) (now : Int) (guid : String) : PlaceRow :=
  ⟨pid, url, title, "", 0, 0, -1, now, guid⟩

/-- The `moz_bookmarks` row inserted by phase (b):
`INSERT INTO moz_bookmarks (type, fk, parent, position, title, dateAdded,
lastModified, guid) VALUES (1, ?, ?, ?, ?, ?, ?, ...)`. -/
def newBookmarkRow (bid pid parentID : Int) (pos : Int) (title : String)
    (now : Int) (guid : String) : BookmarkRow :=
  ⟨bid, 1, some pid, parentID, pos, some title, now, now, guid⟩

/-- The transaction-local state after phase (a): unchanged when the URL was
found, otherwise with the fresh place row appended. -/
def txAfterPlace (db : Db) (url title : String) (now : Int) (guid : String) : Db :=
  match findPlaceByUrl db.places url with
  | some _ => db
  | none =>
    { db with
      places := db.places ++ [newPlaceRow (nextId (db.places.map (·.id))) url title now guid] }

/-- The place id phase (b) references: the found row's id, or the id of the
row phase (a) just inserted (`result.LastInsertId()`). -/
def placeIdFor (db : Db) (url : String) : Int :=
  match findPlaceByUrl db.places url with
  | some pid => pid
  | none => nextId (db.places.map (·.id))

def addBookmark (env : AddEnv) (db : Db) (parentID : Int) (title url : String)
    (now : Int) : Option String × Db :=
  if env.beginFails then (some "failed to begin transaction", db)
  else if findPlaceByUrl db.places url = none ∧ env.insertPlaceFails then
    (some "failed to insert place", db)
  else
    let tx1 := txAfterPlace db url title now env.placeGuid
    let pid := placeIdFor db url
    if env.maxPosFails then (some "failed to get max position", db)
    else
      let pos := maxPositionIn tx1.bookmarks parentID + 1
      if env.insertBookmarkFails then (some "failed to insert bookmark", db)
      else
        let tx2 := { tx1 with
          bookmarks := tx1.bookmarks ++
            [newBookmarkRow (nextId (tx1.bookmarks.map (·.id))) pid parentID pos title now
              env.bookmarkGuid] }
        if env.txCommitFails then (some "failed to commit transaction", db)
        else (none, tx2)

/-! ## All staging mutations as one operation type (for the claim that every
failing mutation leaves the staging copy in its prior state).  A failing
single-statement mutation leaves the database unchanged (a single SQLite
statement is atomic); `AddBookmark` carries its own transaction. -/

inductive MutOp
  | updTitle (bookmarkID : Int) (t : String)
  | updURL (placeID : Int) (u : String)
  | del (bookmarkID : Int)
  | move (bookmarkID newParentID : Int) (newPosition : Int)
  | addBm (parentID : Int) (t u : String)

structure MutEnv where
  stmtFails : Bool
  addEnv : AddEnv

def applyMutation (env : MutEnv) (db : Db) (m : MutOp) (now : Int) : Option String × Db :=
  match m with
  | .updTitle bid t =>
    if env.stmtFails then (some "mutation failed", db) else (none, updateBookmarkTitle db bid t now)
  | .updURL pid u =>
    if env.stmtFails then (some "mutation failed", db) else (none, updateBookmarkURL db pid u now)
  | .del bid =>
    if env.stmtFails then (some "mutation failed", db) else (none, deleteBookmark db bid)
  | .move bid np pos =>
    if env.stmtFails then (some "mutation failed", db)
    else (none, moveBookmark db bid np pos now)
  | .addBm p t u => addBookmark env.addEnv db p t u now

/-! ## `FindOrCreateScratchFolder` (staging.go lines 228-265) -/

/-- Model of `SELECT id FROM moz_bookmarks WHERE type = 2 AND title = 'Scratch'` —
note: no constraint on the parent, the lookup is database-wide. -/
def findScratch : List BookmarkRow → Option Int
  | [] => none
  | r :: rs => if r.typ = 2 ∧ r.title = some "Scratch" then some r.id else findScratch rs

/-- Model of `SELECT id FROM moz_bookmarks WHERE guid = 'menu________'`. -/
def findMenuRoot : List BookmarkRow → Option Int
  | [] => none
  | r :: rs => if r.guid = "menu________" then some r.id else findMenuRoot rs

/-- The folder row inserted when no Scratch folder exists:
`INSERT INTO moz_bookmarks (type, fk, parent, position, title, dateAdded,
lastModified, guid) VALUES (2, NULL, ?, ?, 'Scratch', ?, ?, ...)`. -/
def scratchRow (fid menuID : Int) (pos : Int) (now : Int) (guid : String) : BookmarkRow :=
  ⟨fid, 2, none, menuID, pos, some "Scratch", now, now, guid⟩

def findOrCreateScratchFolder (db : Db) (now : Int) (guid : String) :
    Except String (Int × Db) :=
  match findScratch db.bookmarks with
  | some fid => .ok (fid, db)
  | none =>
    match findMenuRoot db.bookmarks with
    | none => .error "failed to find bookmarks menu"
    | some menuID =>
      let pos := maxPositionIn db.bookmarks menuID + 1
      let fid := nextId (db.bookmarks.map (·.id))
      .ok (fid, { db with bookmarks := db.bookmarks ++ [scratchRow fid menuID pos now guid] })

/-! ## `BuildTree` (db/queries.go lines 87-114) -/

/-- The root-selection loop: the first fetched node whose parent id is 0. -/
def findRoot : List BookmarkRow → Option BookmarkRow
  | [] => none
  | b :: bs => if b.parent = 0 then some b else findRoot bs

/-- Whether some fetched node has the given id (`bookmarkMap[i]` exists). -/
def hasId (bs : List BookmarkRow) (i : Int) : Bool :=
  bs.any (fun b => b.id == i)

/-- The attachment loop, from the point of view of one parent node: the
children appended to `node` are exactly the fetched nodes `b` (in fetch
order) with `b.Parent != 0`, whose parent id exists in the map, and whose
parent id equals `node.id`. -/
def attachChildren (bs : List BookmarkRow) (node : BookmarkRow) : List BookmarkRow :=
  bs.foldl
    (fun acc b =>
      if b.parent ≠ 0 ∧ hasId bs b.parent ∧ b.parent = node.id then acc ++ [b] else acc)
    []

/-- Model of `BuildTree`: returns the selected root, or the error
`"no root bookmark found"` when no node has parent id 0. -/
def buildTree (bs : List BookmarkRow) : Except String BookmarkRow :=
  match findRoot bs with
  | none => .error "no root bookmark found"
  | some r => .ok r

/-! ## Helper lemmas -/

theorem copyFile_success (env : CopyEnv) (fs : Fs) (src dst : String)
    (h : (copyFile env fs src dst).1 = true) :
    ∃ c, fsLookup fs src = some c ∧ copyFile env fs src dst = (true, fsWrite fs dst c) := by
  by_cases h1 : env.openSrcFails
  · simp [copyFile, h1] at h
  · cases hc : fsLookup fs src with
    | none => simp [copyFile, h1, hc] at h
    | some c =>
      by_cases h2 : env.createDstFails
      · simp [copyFile, h1, hc, h2] at h
      · by_cases h3 : env.copyFails
        · simp [copyFile, h1, hc, h2, h3] at h
        · by_cases h4 : env.syncFails
          · simp [copyFile, h1, hc, h2, h3, h4] at h
          · refine ⟨c, rfl, ?_⟩
            simp [copyFile, h1, hc, h2, h3, h4]

theorem createStaging_success (env : CreateEnv) (tempDir : String) (pid : Nat)
    (orig : String) (fs : Fs) (s : StagingDB) (fs1 : Fs)
    (h : createStaging env tempDir pid orig fs = (some s, fs1)) :
    s.originalPath = orig ∧ s.stagingPath = tempDir ++ "/" ++ stagingName pid ∧
    ∃ c, fsLookup fs orig = some c ∧ fs1 = fsWrite fs s.stagingPath c := by
  simp only [createStaging] at h
  by_cases hcp : (copyFile env.copyEnv fs orig (tempDir ++ "/" ++ stagingName pid)).1 = false
  · simp [hcp] at h
  · rw [Bool.not_eq_false] at hcp
    obtain ⟨c, hc, heq⟩ := copyFile_success env.copyEnv fs orig _ hcp
    rw [heq] at h
    by_cases ho : env.openDbFails
    · simp [ho] at h
    · by_cases hp : env.pragmaFails
      · simp [ho, hp] at h
      · have h2 : (some (⟨orig, tempDir ++ "/" ++ stagingName pid, true⟩ : StagingDB),
            fsWrite fs (tempDir ++ "/" ++ stagingName pid) c) = (some s, fs1) := by
          rw [← h]
          simp [ho, hp]
        injection h2 with hs hfs
        injection hs with hs2
        subst hs2
        exact ⟨rfl, rfl, c, hc, hfs.symm⟩

theorem rollback_preserves (env : RollbackEnv) (s : StagingDB) (fs : Fs) (q : String)
    (hq : q ≠ s.stagingPath) :
    fsLookup (rollback env s fs).2 q = fsLookup fs q := by
  unfold rollback
  by_cases h : env.removeFails
  · simp [h]
  · cases hc : fsLookup fs s.stagingPath <;>
      simp [h, hc, fsLookup_fsRemove, hq]

theorem rollback_removes (env : RollbackEnv) (s : StagingDB) (fs : Fs)
    (h : (rollback env s fs).1 = true) :
    fsLookup (rollback env s fs).2 s.stagingPath = none := by
  unfold rollback at *
  by_cases hf : env.removeFails
  · simp [hf] at h
  · cases hc : fsLookup fs s.stagingPath with
    | none => simp [hf, hc] at h
    | some c => simp [hf, hc, fsLookup_fsRemove]

theorem closeStaging_preserves (env : CloseEnv) (s : StagingDB) (fs : Fs) (q : String)
    (hq : q ≠ s.stagingPath) :
    fsLookup (closeStaging env s fs).2 q = fsLookup fs q := by
  unfold closeStaging
  by_cases h : s.connOpen && env.connCloseFails
  · simp [h]
  · cases hc : fsLookup fs s.stagingPath with
    | none => simp [h, hc]
    | some c =>
      by_cases hr : env.removeFails
      · simp [h, hc, hr]
      · simp [h, hc, hr, fsLookup_fsRemove, hq]

theorem closeStaging_removes (env : CloseEnv) (s : StagingDB) (fs : Fs)
    (h : (closeStaging env s fs).1 = true) :
    fsLookup (closeStaging env s fs).2 s.stagingPath = none := by
  unfold closeStaging at *
  by_cases hf : s.connOpen && env.connCloseFails
  · simp [hf] at h
  · cases hc : fsLookup fs s.stagingPath with
    | none => simp [hf, hc]
    | some c =>
      by_cases hr : env.removeFails
      · simp [hf, hc, hr] at h
      · simp [hf, hc, hr, fsLookup_fsRemove]

/-! ## Claim C2 -/

/-- C2: whenever the Liveness Guard reports the owning browser running,
`Commit` fails with the SourceLocked error naming that process, the trace
stops at the liveness check (no release, backup, swap or cleanup step
executes), the filesystem — in particular the original file's bytes and the
staging copy — is untouched, and the staging connection is left exactly as
it was (so the staging copy remains usable for further mutations). -/
theorem commit_sourceLocked (env : CommitEnv) (s : StagingDB) (fs : Fs)
    (h : env.browserRunning = true) :
    (commit env s fs).result = .error (.sourceLocked env.browserName)
    ∧ (commit env s fs).fs = fs
    ∧ (commit env s fs).connOpen = s.connOpen
    ∧ (commit env s fs).trace = [.liveness]
    ∧ fsLookup (commit env s fs).fs s.originalPath = fsLookup fs s.originalPath
    ∧ fsLookup (commit env s fs).fs s.stagingPath = fsLookup fs s.stagingPath := by
  simp [commit, h]

def c2Env : CommitEnv :=
  ⟨true, "Firefox", false, ⟨false, false, false, 0, false⟩, false, false, false⟩

def c2S : StagingDB := ⟨"places.sqlite", "/tmp/gophermark-staging-7.sqlite", true⟩

def c2Fs : Fs := [("places.sqlite", [1, 2]), ("/tmp/gophermark-staging-7.sqlite", [3])]

/-- C2 witness: a concrete guarded commit attempt. -/
theorem commit_sourceLocked_witness :
    (commit c2Env c2S c2Fs).result = .error (.sourceLocked "Firefox")
    ∧ (commit c2Env c2S c2Fs).fs = c2Fs
    ∧ (commit c2Env c2S c2Fs).connOpen = true
    ∧ (commit c2Env c2S c2Fs).trace = [.liveness] :=
  ⟨(commit_sourceLocked c2Env c2S c2Fs rfl).1,
   (commit_sourceLocked c2Env c2S c2Fs rfl).2.1,
   (commit_sourceLocked c2Env c2S c2Fs rfl).2.2.1,
   (commit_sourceLocked c2Env c2S c2Fs rfl).2.2.2.1⟩

/-! ## Claim C1 -/

def c1S : StagingDB := ⟨"orig.sqlite", "stag.sqlite", true⟩

def c1Fs : Fs := [("orig.sqlite", [1]), ("stag.sqlite", [2])]

def c1CopyOk : CopyEnv := ⟨false, false, false, 0, false⟩

def c1EnvBoth : CommitEnv := ⟨false, "", false, c1CopyOk, true, true, false⟩

def c1EnvSwapOnly : CommitEnv := ⟨false, "", false, c1CopyOk, true, false, false⟩

/-- C1 counterexample: when the swap fails after a successful backup and the
restore from the backup ALSO fails, `Commit` returns exactly the same
`swapFailed` error as when the restore succeeds — the restore's error is
discarded (the bare `os.Rename` on staging.go line 69), so the unrecoverable
double-failure is NOT surfaced as a distinct error kind. -/
theorem commit_restore_failure_not_distinct :
    c1EnvBoth.restoreFails = true
    ∧ c1EnvSwapOnly.restoreFails = false
    ∧ (commit c1EnvBoth c1S c1Fs).result = .error .swapFailed
    ∧ (commit c1EnvSwapOnly c1S c1Fs).result = .error .swapFailed
    ∧ (commit c1EnvBoth c1S c1Fs).result = (commit c1EnvSwapOnly c1S c1Fs).result :=
  ⟨rfl, rfl, rfl, rfl, rfl⟩

/-- C1 (amended): if the liveness check passes, the connection closes, the
backup succeeds and the atomic swap fails, `Commit` attempts exactly one
restore of the original from the backup just taken, and — whether or not
that restore also fails — returns the single `swapFailed` error: the
restore's own failure is silently discarded, and no distinct unrecoverable
error kind is reported. -/
theorem commit_swapFailed_single_restore (env : CommitEnv) (s : StagingDB) (fs : Fs)
    (h1 : env.browserRunning = false) (h2 : env.closeFails = false)
    (h3 : (copyFile env.backupEnv fs s.originalPath (s.originalPath ++ ".backup")).1 = true)
    (h4 : env.swapFails = true) :
    (commit env s fs).result = .error .swapFailed
    ∧ (commit env s fs).trace = [.liveness, .closeConn, .backup, .swap, .restore]
    ∧ (commit env s fs).trace.count .restore = 1 := by
  have hne : ¬((copyFile env.backupEnv fs s.originalPath (s.originalPath ++ ".backup")).1 = false) := by
    rw [h3]; exact Bool.true_eq_false ▸ fun hh => by cases hh
  simp only [commit, h1, h2, h4, Bool.false_eq_true, if_false, if_true, hne, if_neg]
  exact ⟨rfl, rfl, rfl⟩

/-- C1 witness for the amended theorem. -/
theorem commit_swapFailed_single_restore_witness :
    (commit c1EnvBoth c1S c1Fs).result = .error .swapFailed
    ∧ (commit c1EnvBoth c1S c1Fs).trace.count .restore = 1 :=
  ⟨(commit_swapFailed_single_restore c1EnvBoth c1S c1Fs rfl rfl (by decide) rfl).1,
   (commit_swapFailed_single_restore c1EnvBoth c1S c1Fs rfl rfl (by decide) rfl).2.2⟩

/-! ## Claim C3 -/

/-- C3: after a successful Create and any sequence of staged mutations
(writes to the staging copy — the staging connection is open on the staging
path alone), both `Rollback` and `Close` leave the original file
byte-identical to its state before Create was called (these paths never
write the original path), and whenever the removal succeeds the staging
temporary file is gone. -/
theorem rollback_purity (cenv : CreateEnv) (tempDir : String) (pid : Nat)
    (orig : String) (fs0 : Fs) (s : StagingDB) (fs1 : Fs) (cs : List Content)
    (renv : RollbackEnv) (clenv : CloseEnv)
    (hcreate : createStaging cenv tempDir pid orig fs0 = (some s, fs1))
    (hne : orig ≠ tempDir ++ "/" ++ stagingName pid) :
    fsLookup (rollback renv s (stagedWrites s cs fs1)).2 orig = fsLookup fs0 orig
    ∧ ((rollback renv s (stagedWrites s cs fs1)).1 = true →
        fsLookup (rollback renv s (stagedWrites s cs fs1)).2 s.stagingPath = none)
    ∧ fsLookup (closeStaging clenv s (stagedWrites s cs fs1)).2 orig = fsLookup fs0 orig
    ∧ ((closeStaging clenv s (stagedWrites s cs fs1)).1 = true →
        fsLookup (closeStaging clenv s (stagedWrites s cs fs1)).2 s.stagingPath = none) := by
  obtain ⟨ho, hstg, c, hc, hfs1⟩ := createStaging_success cenv tempDir pid orig fs0 s fs1 hcreate
  have hne2 : orig ≠ s.stagingPath := by rw [hstg]; exact hne
  have hlook1 : fsLookup fs1 orig = fsLookup fs0 orig := by
    rw [hfs1, fsLookup_fsWrite, if_neg hne2]
  have hlook2 : fsLookup (stagedWrites s cs fs1) orig = fsLookup fs0 orig := by
    rw [fsLookup_stagedWrites s cs fs1 orig hne2, hlook1]
  exact ⟨by rw [rollback_preserves renv s _ orig hne2, hlook2],
    rollback_removes renv s _,
    by rw [closeStaging_preserves clenv s _ orig hne2, hlook2],
    closeStaging_removes clenv s _⟩

def c3CEnv : CreateEnv := ⟨⟨false, false, false, 0, false⟩, false, false⟩

def c3S : StagingDB := ⟨"places.sqlite", "/tmp/gophermark-staging-3.sqlite", true⟩

def c3Fs0 : Fs := [("places.sqlite", [9, 9])]

def c3Fs1 : Fs := fsWrite c3Fs0 "/tmp/gophermark-staging-3.sqlite" [9, 9]

/-- C3 witness: two staged mutations, then Rollback: the original still holds
its pre-Create bytes and the staging file is gone. -/
theorem rollback_purity_witness :
    fsLookup (rollback ⟨false⟩ c3S (stagedWrites c3S [[1], [2]] c3Fs1)).2 "places.sqlite"
      = some [9, 9]
    ∧ fsLookup (rollback ⟨false⟩ c3S (stagedWrites c3S [[1], [2]] c3Fs1)).2
        c3S.stagingPath = none := by
  have h := rollback_purity c3CEnv "/tmp" 3 "places.sqlite" c3Fs0 c3S c3Fs1 [[1], [2]]
    ⟨false⟩ ⟨false, false⟩ (by decide) (by decide)
  exact ⟨h.1.trans (by decide), h.2.1 (by decide)⟩

/-! ## Claim C5 -/

def c5Env : CreateEnv := ⟨⟨false, false, true, 1, false⟩, false, false⟩

def c5Fs : Fs := [("places.sqlite", [7, 7, 7])]

/-- C5 counterexample: when the byte copy fails midway (here after one byte),
`CreateStaging` returns failure but does NOT remove the partially created
staging copy: a one-byte staging file remains on disk, contradicting "on
every such failure any partially created staging copy is removed". -/
theorem createStaging_partial_copy_remains :
    (createStaging c5Env "/tmp" 9 "places.sqlite" c5Fs).1 = none
    ∧ fsLookup (createStaging c5Env "/tmp" 9 "places.sqlite" c5Fs).2
        ("/tmp" ++ "/" ++ stagingName 9) = some [7] :=
  ⟨rfl, rfl⟩

theorem copyFile_src_missing (env : CopyEnv) (fs : Fs) (src dst : String)
    (h : env.openSrcFails = true ∨ fsLookup fs src = none) :
    copyFile env fs src dst = (false, fs) := by
  rcases h with h | h
  · simp [copyFile, h]
  · by_cases h1 : env.openSrcFails
    · simp [copyFile, h1]
    · simp [copyFile, h1, h]

/-- C5 (amended): `Create` fails when the source cannot be read (filesystem
untouched, nothing created), and when opening the staging database or
setting WAL mode fails the staging copy IS removed; but a failure inside
the byte copy itself leaves the partially written copy on disk (see the
counterexample).  On success the staging file holds exactly the original
file's bytes. -/
theorem createStaging_cleanup (env : CreateEnv) (tempDir : String) (pid : Nat)
    (orig : String) (fs : Fs) :
    ((env.copyEnv.openSrcFails = true ∨ fsLookup fs orig = none) →
      createStaging env tempDir pid orig fs = (none, fs))
    ∧ ((copyFile env.copyEnv fs orig (tempDir ++ "/" ++ stagingName pid)).1 = true →
        (env.openDbFails = true ∨ env.pragmaFails = true) →
        (createStaging env tempDir pid orig fs).1 = none
        ∧ fsLookup (createStaging env tempDir pid orig fs).2
            (tempDir ++ "/" ++ stagingName pid) = none)
    ∧ (∀ s, (createStaging env tempDir pid orig fs).1 = some s →
        fsLookup (createStaging env tempDir pid orig fs).2 s.stagingPath
          = fsLookup fs orig) := by
  refine ⟨?_, ?_, ?_⟩
  · intro h
    have hcf := copyFile_src_missing env.copyEnv fs orig (tempDir ++ "/" ++ stagingName pid) h
    simp [createStaging, hcf]
  · intro hok hfail
    obtain ⟨c, hc, heq⟩ := copyFile_success env.copyEnv fs orig _ hok
    have hres : createStaging env tempDir pid orig fs
        = (none, fsRemove (fsWrite fs (tempDir ++ "/" ++ stagingName pid) c)
            (tempDir ++ "/" ++ stagingName pid)) := by
      rcases hfail with hf | hf <;> simp [createStaging, heq, hf]
    rw [hres]
    exact ⟨rfl, by rw [fsLookup_fsRemove, if_pos rfl]⟩
  · intro s hs
    rcases hpair : createStaging env tempDir pid orig fs with ⟨o2, fs2⟩
    rw [hpair] at hs
    simp only at hs
    subst hs
    obtain ⟨ho, hstg, c, hc, hfs2⟩ := createStaging_success env tempDir pid orig fs s fs2 hpair
    simp only
    rw [hfs2, fsLookup_fsWrite, if_pos rfl, hc]

def c5Env2 : CreateEnv := ⟨⟨false, false, false, 0, false⟩, true, false⟩

/-- C5 witness for the amended theorem: a failed database open removes the
staging copy. -/
theorem createStaging_cleanup_witness :
    (createStaging c5Env2 "/tmp" 9 "places.sqlite" c5Fs).1 = none
    ∧ fsLookup (createStaging c5Env2 "/tmp" 9 "places.sqlite" c5Fs).2
        ("/tmp" ++ "/" ++ stagingName 9) = none := by
  exact (createStaging_cleanup c5Env2 "/tmp" 9 "places.sqlite" c5Fs).2.1
    (by decide) (Or.inl rfl)

/-! ## Claim C4 -/

def c4Row : BookmarkRow := ⟨1, 1, some 10, 2, 0, some "A", 50, 100, "g1"⟩

def c4Place : PlaceRow := ⟨10, "https://a", "A", "", 0, 0, -1, 60, "pg"⟩

def c4Db : Db := ⟨[c4Place], [c4Row]⟩

/-- C4 counterexample: calling `UpdateBookmarkTitle` with the row's current
title still stamps `lastModified` (100 → 200), and calling
`UpdateBookmarkURL` with the record's current URL still stamps
`last_visit_date` (60 → 200): the stored records change, so at the staging
layer an equal-value update is NOT a no-op. -/
theorem updateTitle_equal_not_noop :
    c4Db.bookmarks = [⟨1, 1, some 10, 2, 0, some "A", 50, 100, "g1"⟩]
    ∧ (updateBookmarkTitle c4Db 1 "A" 200).bookmarks
        = [⟨1, 1, some 10, 2, 0, some "A", 50, 200, "g1"⟩]
    ∧ updateBookmarkTitle c4Db 1 "A" 200 ≠ c4Db
    ∧ (updateBookmarkURL c4Db 10 "https://a" 200).places
        = [⟨10, "https://a", "A", "", 0, 0, -1, 200, "pg"⟩]
    ∧ updateBookmarkURL c4Db 10 "https://a" 200 ≠ c4Db := by
  exact ⟨rfl, rfl, by decide, rfl, by decide⟩

/-- C4 (amended): the staging-layer updates stamp their timestamp column
unconditionally — after `UpdateBookmarkTitle` the matching row's
`lastModified` is the current time, and after `UpdateBookmarkURL` the
matching place's `last_visit_date` is the current time, even when the new
value equals the stored one.  The equal-value no-op lives one layer up, in
the UI: `saveTitle`/`saveURL` skip the staging call when the new value
equals the current value, leaving the staged database untouched (and
`lastModified` unchanged). -/
theorem update_noop_in_ui (db : Db) (bid pid : Int) (curT curU : String) (now : Int) :
    uiSaveTitle db bid curT curT now = db
    ∧ uiSaveURL db pid curU curU now = db
    ∧ (∀ r ∈ (updateBookmarkTitle db bid curT now).bookmarks,
        r.id = bid → r.lastModified = now)
    ∧ (∀ r ∈ (updateBookmarkURL db pid curU now).places,
        r.id = pid → r.lastVisitDate = now) := by
  refine ⟨by simp [uiSaveTitle], by simp [uiSaveURL], ?_, ?_⟩
  · intro r hr hid
    simp only [updateBookmarkTitle, List.mem_map] at hr
    obtain ⟨a, ha, rfl⟩ := hr
    by_cases h : a.id = bid
    · simp [if_pos h]
    · rw [if_neg h] at hid ⊢
      exact absurd hid h
  · intro r hr hid
    simp only [updateBookmarkURL, List.mem_map] at hr
    obtain ⟨a, ha, rfl⟩ := hr
    by_cases h : a.id = pid
    · simp [if_pos h]
    · rw [if_neg h] at hid ⊢
      exact absurd hid h

/-- C4 witness for the amended theorem. -/
theorem update_noop_in_ui_witness :
    uiSaveTitle c4Db 1 "A" "A" 200 = c4Db
    ∧ uiSaveURL c4Db 10 "https://a" "https://a" 200 = c4Db :=
  ⟨(update_noop_in_ui c4Db 1 10 "A" "https://a" 200).1,
   (update_noop_in_ui c4Db 1 10 "A" "https://a" 200).2.1⟩

/-! ## Claim C6 -/

theorem addBookmark_failure_atomic (env : AddEnv) (db : Db) (p : Int) (t u : String)
    (now : Int) (e : String) (h : (addBookmark env db p t u now).1 = some e) :
    (addBookmark env db p t u now).2 = db := by
  simp only [addBookmark] at h ⊢
  split_ifs at h ⊢ <;> rfl

/-- C6: every staging mutation that fails leaves the staging database in its
prior state.  The single-statement mutations are single atomic SQLite
statements; `AddBookmark` executes its two phases (find-or-create of the
URL record, insertion of the bookmark row) inside one transaction with a
deferred rollback, so a failure at any of its steps — begin, place insert,
max-position query, bookmark insert, commit — leaves neither effect
visible. -/
theorem mutation_failure_atomic (env : MutEnv) (db : Db) (m : MutOp) (now : Int)
    (e : String) (h : (applyMutation env db m now).1 = some e) :
    (applyMutation env db m now).2 = db := by
  cases m with
  | updTitle bid t =>
    simp only [applyMutation] at h ⊢
    split_ifs at h ⊢
    rfl
  | updURL pid u =>
    simp only [applyMutation] at h ⊢
    split_ifs at h ⊢
    rfl
  | del bid =>
    simp only [applyMutation] at h ⊢
    split_ifs at h ⊢
    rfl
  | move bid np pos =>
    simp only [applyMutation] at h ⊢
    split_ifs at h ⊢
    rfl
  | addBm p t u => exact addBookmark_failure_atomic env.addEnv db p t u now e h

def c6AddOk : AddEnv := ⟨false, false, false, false, false, "pg", "bg"⟩

def c6AddCommitFail : AddEnv := ⟨false, false, false, false, true, "pg", "bg"⟩

/-- C6 witness: a failed single-statement update and a failed `AddBookmark`
transaction commit both leave the concrete database unchanged. -/
theorem mutation_failure_atomic_witness :
    (applyMutation ⟨true, c6AddOk⟩ c4Db (.updTitle 1 "B") 300).2 = c4Db
    ∧ (applyMutation ⟨false, c6AddCommitFail⟩ c4Db (.addBm 2 "t" "https://b") 300).2 = c4Db :=
  ⟨mutation_failure_atomic ⟨true, c6AddOk⟩ c4Db (.updTitle 1 "B") 300 "mutation failed" rfl,
   mutation_failure_atomic ⟨false, c6AddCommitFail⟩ c4Db (.addBm 2 "t" "https://b") 300
     "failed to commit transaction" rfl⟩

/-! ## Claim C7 -/

theorem txAfterPlace_bookmarks (db : Db) (url title : String) (now : Int) (g : String) :
    (txAfterPlace db url title now g).bookmarks = db.bookmarks := by
  unfold txAfterPlace
  cases findPlaceByUrl db.places url <;> rfl

/-- C7: a successful `AddBookmark` appends exactly one bookmark row to the
requested folder, at position `1 + max(existing sibling positions)` —
`COALESCE(MAX(position), -1) + 1`, hence position 0 when the folder has no
children — with the given parent, type 1, the given title, and the current
timestamp for both `dateAdded` and `lastModified`. -/
theorem addBookmark_position (env : AddEnv) (db : Db) (p : Int) (t u : String)
    (now : Int) (h : (addBookmark env db p t u now).1 = none) :
    ∃ b : BookmarkRow,
      (addBookmark env db p t u now).2.bookmarks = db.bookmarks ++ [b]
      ∧ b.position = maxPositionIn db.bookmarks p + 1
      ∧ (db.bookmarks.filter (fun r => r.parent == p) = [] → b.position = 0)
      ∧ b.parent = p ∧ b.typ = 1 ∧ b.title = some t
      ∧ b.dateAdded = now ∧ b.lastModified = now := by
  simp only [addBookmark] at h ⊢
  split_ifs at h ⊢ <;> try simp at h
  refine ⟨newBookmarkRow
      (nextId ((txAfterPlace db u t now env.placeGuid).bookmarks.map (·.id)))
      (placeIdFor db u) p (maxPositionIn (txAfterPlace db u t now env.placeGuid).bookmarks p + 1)
      t now env.bookmarkGuid, ?_, ?_, ?_, rfl, rfl, rfl, rfl, rfl⟩
  · rw [txAfterPlace_bookmarks]
  · simp only [newBookmarkRow, txAfterPlace_bookmarks]
  · intro hempty
    simp only [newBookmarkRow, txAfterPlace_bookmarks, maxPositionIn, hempty,
      List.map_nil, sqlMax, Option.getD]
    rfl

def c7Db : Db :=
  ⟨[], [⟨1, 1, some 1, 5, 0, some "a", 0, 0, "ga"⟩,
        ⟨2, 1, some 1, 5, 1, some "b", 0, 0, "gb"⟩,
        ⟨3, 1, some 1, 5, 2, some "c", 0, 0, "gc"⟩]⟩

def c7DbEmpty : Db := ⟨[], []⟩

/-- C7 witness: a folder with sibling positions {0,1,2} gets the new node at
position 3; an empty folder gets position 0. -/
theorem addBookmark_position_witness :
    ((addBookmark c6AddOk c7Db 5 "new" "https://x" 42).2.bookmarks.map (·.position))
      = [0, 1, 2, 3]
    ∧ ((addBookmark c6AddOk c7DbEmpty 5 "new" "https://x" 42).2.bookmarks.map (·.position))
      = [0] := by
  obtain ⟨b1, hb1, hp1, -, -, -, -, -, -⟩ :=
    addBookmark_position c6AddOk c7Db 5 "new" "https://x" 42 (by decide)
  obtain ⟨b2, hb2, -, hp2, -, -, -, -, -⟩ :=
    addBookmark_position c6AddOk c7DbEmpty 5 "new" "https://x" 42 (by decide)
  have h3 : b1.position = 3 := by rw [hp1]; decide
  have h0 : b2.position = 0 := hp2 (by decide)
  rw [hb1, hb2]
  simp [c7Db, c7DbEmpty, h3, h0]

/-! ## Claim C8 -/

theorem findPlaceByUrl_append (ps qs : List PlaceRow) (u : String) :
    findPlaceByUrl (ps ++ qs) u
      = ((findPlaceByUrl ps u).orElse (fun _ => findPlaceByUrl qs u)) := by
  induction ps with
  | nil => simp [findPlaceByUrl]
  | cons p ps ih =>
    by_cases h : p.url = u <;> simp [findPlaceByUrl, h, ih]

theorem findPlaceByUrl_eq_none (ps : List PlaceRow) (u : String)
    (h : ∀ p ∈ ps, p.url ≠ u) : findPlaceByUrl ps u = none := by
  induction ps with
  | nil => rfl
  | cons p ps ih =>
    rw [findPlaceByUrl, if_neg (h p (List.mem_cons_self p ps))]
    exact ih (fun q hq => h q (List.mem_cons_of_mem p hq))

/-- C8: starting from a database with no place row for URL `u`, two
successful `AddBookmark` calls with the same URL (under different titles,
parents and times) create exactly one place row for `u` — the second call
finds the row the first call inserted, by exact string match — and exactly
two new bookmark rows, both referencing that single place row's id. -/
theorem addBookmark_url_dedup (env1 env2 : AddEnv) (db : Db) (p1 p2 : Int)
    (t1 t2 u : String) (n1 n2 : Int)
    (hfresh : ∀ p ∈ db.places, p.url ≠ u)
    (h1b : env1.beginFails = false) (h1i : env1.insertPlaceFails = false)
    (h1m : env1.maxPosFails = false) (h1k : env1.insertBookmarkFails = false)
    (h1c : env1.txCommitFails = false)
    (h2b : env2.beginFails = false) (h2m : env2.maxPosFails = false)
    (h2k : env2.insertBookmarkFails = false) (h2c : env2.txCommitFails = false) :
    ∃ pid b1 b2,
      (addBookmark env2 (addBookmark env1 db p1 t1 u n1).2 p2 t2 u n2).2.places
        = db.places ++ [newPlaceRow pid u t1 n1 env1.placeGuid]
      ∧ (addBookmark env2 (addBookmark env1 db p1 t1 u n1).2 p2 t2 u n2).2.bookmarks
        = db.bookmarks ++ [b1, b2]
      ∧ b1.fk = some pid ∧ b2.fk = some pid
      ∧ ((addBookmark env2 (addBookmark env1 db p1 t1 u n1).2 p2 t2 u n2).2.places.filter
          (fun q => q.url == u)).length = 1 := by
  have hnone : findPlaceByUrl db.places u = none := findPlaceByUrl_eq_none db.places u hfresh
  set pid := nextId (db.places.map (·.id)) with hpid
  have hstep1 : addBookmark env1 db p1 t1 u n1
      = (none, ⟨db.places ++ [newPlaceRow pid u t1 n1 env1.placeGuid],
          db.bookmarks ++ [newBookmarkRow (nextId (db.bookmarks.map (·.id))) pid p1
            (maxPositionIn db.bookmarks p1 + 1) t1 n1 env1.bookmarkGuid]⟩) := by
    simp only [addBookmark, h1b, h1i, h1m, h1k, h1c, Bool.false_eq_true, if_false,
      and_false, txAfterPlace, placeIdFor, hnone]
  set db1 : Db := ⟨db.places ++ [newPlaceRow pid u t1 n1 env1.placeGuid],
      db.bookmarks ++ [newBookmarkRow (nextId (db.bookmarks.map (·.id))) pid p1
        (maxPositionIn db.bookmarks p1 + 1) t1 n1 env1.bookmarkGuid]⟩ with hdb1
  have hfind1 : findPlaceByUrl db1.places u = some pid := by
    rw [hdb1]
    simp only [findPlaceByUrl_append, hnone, Option.orElse]
    simp [findPlaceByUrl, newPlaceRow]
  have hstep2 : addBookmark env2 db1 p2 t2 u n2
      = (none, ⟨db1.places,
          db1.bookmarks ++ [newBookmarkRow (nextId (db1.bookmarks.map (·.id))) pid p2
            (maxPositionIn db1.bookmarks p2 + 1) t2 n2 env2.bookmarkGuid]⟩) := by
    simp only [addBookmark, h2b, h2m, h2k, h2c, Bool.false_eq_true, if_false,
      txAfterPlace, placeIdFor, hfind1]
    rw [if_neg (by rintro ⟨hcon, -⟩; exact Option.noConfusion hcon)]
  refine ⟨pid,
    newBookmarkRow (nextId (db.bookmarks.map (·.id))) pid p1
      (maxPositionIn db.bookmarks p1 + 1) t1 n1 env1.bookmarkGuid,
    newBookmarkRow (nextId (db1.bookmarks.map (·.id))) pid p2
      (maxPositionIn db1.bookmarks p2 + 1) t2 n2 env2.bookmarkGuid, ?_, ?_, rfl, rfl, ?_⟩
  · rw [hstep1]
    simp only [hstep2]
  · rw [hstep1]
    simp only [hstep2, hdb1, List.append_assoc, List.cons_append, List.nil_append]
  · rw [hstep1]
    simp only [hstep2, hdb1, List.filter_append]
    have hleft : db.places.filter (fun q => q.url == u) = [] := by
      rw [List.filter_eq_nil_iff]
      intro a ha
      simp only [beq_iff_eq]
      exact hfresh a ha
    rw [hleft]
    simp [newPlaceRow]

def c8Db : Db := ⟨[], []⟩

/-- C8 witness: two adds of the same URL into an empty database leave exactly
one matching place row and exactly two bookmark rows. -/
theorem addBookmark_url_dedup_witness :
    ((addBookmark c6AddOk (addBookmark c6AddOk c8Db 2 "first" "https://x" 10).2
        3 "second" "https://x" 20).2.places.filter (fun q => q.url == "https://x")).length = 1
    ∧ (addBookmark c6AddOk (addBookmark c6AddOk c8Db 2 "first" "https://x" 10).2
        3 "second" "https://x" 20).2.bookmarks.length = 2 := by
  obtain ⟨pid, b1, b2, hpl, hbk, hf1, hf2, hlen⟩ :=
    addBookmark_url_dedup c6AddOk c6AddOk c8Db 2 3 "first" "second" "https://x" 10 20
      (by simp [c8Db]) rfl rfl rfl rfl rfl rfl rfl rfl rfl
  refine ⟨hlen, ?_⟩
  rw [hbk]
  rfl

/-! ## Claim C9 -/

def c9Menu : BookmarkRow := ⟨5, 2, none, 1, 0, some "menu", 0, 0, "menu________"⟩

def c9Stray : BookmarkRow := ⟨42, 2, none, 99, 0, some "Scratch", 0, 0, "gstray"⟩

def c9Db : Db := ⟨[], [c9Menu, c9Stray]⟩

/-- C9 counterexample: with a 'Scratch' folder that is NOT under the
toolbar/menu root (its parent is 99 while the menu root's id is 5, and no
'Scratch' folder exists under the root), `FindOrCreateScratchFolder`
returns that stray folder unchanged and creates nothing: the lookup is a
database-wide title match, not a lookup "under the well-known toolbar/menu
root" as the claim describes. -/
theorem scratch_lookup_not_under_root :
    findOrCreateScratchFolder c9Db 100 "gg" = .ok (42, c9Db)
    ∧ findMenuRoot c9Db.bookmarks = some 5
    ∧ (∀ r ∈ c9Db.bookmarks, r.id = 42 → r.parent = 99)
    ∧ (∀ r ∈ c9Db.bookmarks, r.parent = 5 → ¬(r.typ = 2 ∧ r.title = some "Scratch")) :=
  ⟨rfl, rfl, by decide, by decide⟩

theorem findScratch_append (bs cs : List BookmarkRow) :
    findScratch (bs ++ cs) = ((findScratch bs).orElse (fun _ => findScratch cs)) := by
  induction bs with
  | nil => simp [findScratch]
  | cons b bs ih =>
    by_cases h : b.typ = 2 ∧ b.title = some "Scratch" <;> simp [findScratch, h, ih]

/-- C9 (amended): `FindOrCreateScratchFolder` looks up a folder (type 2)
titled 'Scratch' anywhere in the database — not only under the toolbar/menu
root.  When none exists anywhere, it creates one under the menu root (guid
`menu________`), appended after the last existing child position, and
returns the new row's id.  Either way, a second call returns the same
identity and leaves the database unchanged (creates no additional
folder). -/
theorem findOrCreateScratch_idempotent (db : Db) (n1 n2 : Int) (g1 g2 : String)
    (fid : Int) (db1 : Db)
    (h : findOrCreateScratchFolder db n1 g1 = .ok (fid, db1)) :
    findOrCreateScratchFolder db1 n2 g2 = .ok (fid, db1)
    ∧ (∀ i, findScratch db.bookmarks = some i → fid = i ∧ db1 = db)
    ∧ (findScratch db.bookmarks = none →
        ∃ menuID, findMenuRoot db.bookmarks = some menuID
          ∧ db1.bookmarks = db.bookmarks
              ++ [scratchRow fid menuID (maxPositionIn db.bookmarks menuID + 1) n1 g1]) := by
  cases hf : findScratch db.bookmarks with
  | some i =>
    simp only [findOrCreateScratchFolder, hf, Except.ok.injEq, Prod.mk.injEq] at h
    obtain ⟨hfid, hdb1⟩ := h
    subst hfid
    subst hdb1
    refine ⟨?_, ?_, ?_⟩
    · simp only [findOrCreateScratchFolder, hf]
    · intro j hj
      injection hj with hij
      exact ⟨hij, rfl⟩
    · intro hcon
      exact Option.noConfusion hcon
  | none =>
    cases hm : findMenuRoot db.bookmarks with
    | none =>
      simp only [findOrCreateScratchFolder, hf, hm] at h
      exact Except.noConfusion h
    | some menuID =>
      simp only [findOrCreateScratchFolder, hf, hm, Except.ok.injEq, Prod.mk.injEq] at h
      obtain ⟨hfid, hdb1⟩ := h
      subst hdb1
      refine ⟨?_, ?_, ?_⟩
      · have hfind : findScratch ({ db with bookmarks := db.bookmarks ++
            [scratchRow (nextId (db.bookmarks.map (·.id))) menuID
              (maxPositionIn db.bookmarks menuID + 1) n1 g1] } : Db).bookmarks
            = some fid := by
          simp only [findScratch_append, hf, Option.orElse]
          simp [findScratch, scratchRow, hfid]
        simp only [findOrCreateScratchFolder, hfind]
      · intro j hj
        exact Option.noConfusion hj
      · intro _
        refine ⟨menuID, rfl, ?_⟩
        rw [← hfid]

def c9Db2 : Db := ⟨[], [c9Menu]⟩

def c9Db2After : Db := ⟨[], [c9Menu, scratchRow 6 5 0 100 "gg"]⟩

/-- C9 witness for the amended theorem: a first call creates the folder
under the menu root; the second call returns the same identity without
changing the database. -/
theorem findOrCreateScratch_idempotent_witness :
    findOrCreateScratchFolder c9Db2 100 "gg" = .ok (6, c9Db2After)
    ∧ findOrCreateScratchFolder c9Db2After 200 "g2" = .ok (6, c9Db2After) :=
  ⟨rfl, (findOrCreateScratch_idempotent c9Db2 100 200 "gg" "g2" 6 c9Db2After rfl).1⟩

/-! ## Claim C10 -/

theorem findRoot_eq_none (bs : List BookmarkRow) :
    findRoot bs = none ↔ ∀ b ∈ bs, b.parent ≠ 0 := by
  induction bs with
  | nil => simp [findRoot]
  | cons b bs ih =>
    by_cases h : b.parent = 0 <;> simp [findRoot, h, ih]

theorem findRoot_eq_some (bs : List BookmarkRow) (r : BookmarkRow)
    (h : findRoot bs = some r) :
    r ∈ bs ∧ r.parent = 0 ∧ ∃ l1 l2, bs = l1 ++ r :: l2 ∧ ∀ b ∈ l1, b.parent ≠ 0 := by
  induction bs with
  | nil => exact Option.noConfusion h
  | cons b bs ih =>
    by_cases hb : b.parent = 0
    · rw [findRoot, if_pos hb] at h
      injection h with h2
      subst h2
      exact ⟨List.mem_cons_self b bs, hb, [], bs, rfl, by simp⟩
    · rw [findRoot, if_neg hb] at h
      obtain ⟨hmem, hpar, l1, l2, heq, hall⟩ := ih h
      refine ⟨List.mem_cons_of_mem b hmem, hpar, b :: l1, l2, by rw [heq]; rfl, ?_⟩
      intro x hx
      rcases List.mem_cons.1 hx with hxb | hx2
      · rw [hxb]; exact hb
      · exact hall x hx2

theorem mem_foldl_attach (all : List BookmarkRow) (node : BookmarkRow) :
    ∀ (bs acc : List BookmarkRow) (x : BookmarkRow),
      x ∈ bs.foldl
        (fun acc b =>
          if b.parent ≠ 0 ∧ hasId all b.parent ∧ b.parent = node.id then acc ++ [b] else acc)
        acc →
      x ∈ acc ∨ (x.parent ≠ 0 ∧ hasId all x.parent ∧ x.parent = node.id)
  | [], _, _, hx => .inl hx
  | b :: bs, acc, x, hx => by
    simp only [List.foldl_cons] at hx
    by_cases hc : b.parent ≠ 0 ∧ hasId all b.parent ∧ b.parent = node.id
    · rw [if_pos hc] at hx
      rcases mem_foldl_attach all node bs (acc ++ [b]) x hx with h | h
      · rcases List.mem_append.1 h with h2 | h2
        · exact .inl h2
        · rw [List.mem_singleton.1 h2]
          exact .inr hc
      · exact .inr h
    · rw [if_neg hc] at hx
      exact mem_foldl_attach all node bs acc x hx

/-- C10: `BuildTree` selects as root the first fetched node whose parent id
is 0 (error exactly when no fetched node has parent id 0), and every
fetched node whose parent id does not match the id of any fetched node is
attached to no node's children list — silently dropped, with no error
reported, so the resulting tree need not contain all input nodes. -/
theorem buildTree_spec (bs : List BookmarkRow) :
    (buildTree bs = .error "no root bookmark found" ↔ ∀ b ∈ bs, b.parent ≠ 0)
    ∧ (∀ r, buildTree bs = .ok r →
        r ∈ bs ∧ r.parent = 0 ∧ ∃ l1 l2, bs = l1 ++ r :: l2 ∧ ∀ b ∈ l1, b.parent ≠ 0)
    ∧ (∀ b ∈ bs, hasId bs b.parent = false → ∀ node, b ∉ attachChildren bs node) := by
  refine ⟨?_, ?_, ?_⟩
  · rw [← findRoot_eq_none]
    unfold buildTree
    cases hf : findRoot bs with
    | none => simp
    | some r => simp
  · intro r hr
    unfold buildTree at hr
    cases hf : findRoot bs with
    | none => rw [hf] at hr; exact Except.noConfusion hr
    | some q =>
      rw [hf] at hr
      injection hr with hq
      subst hq
      exact findRoot_eq_some bs _ hf
  · intro b _ hno node hmem
    rcases mem_foldl_attach bs node bs [] b hmem with h | h
    · exact List.not_mem_nil b h
    · rw [hno] at h
      exact Bool.noConfusion h.2.1

def c10A : BookmarkRow := ⟨1, 2, none, 0, 0, some "root", 0, 0, "root________"⟩

def c10B : BookmarkRow := ⟨2, 1, some 1, 1, 0, some "kid", 0, 0, "gkid"⟩

def c10C : BookmarkRow := ⟨3, 1, some 2, 77, 0, some "orphan", 0, 0, "gorp"⟩

def c10List : List BookmarkRow := [c10A, c10B, c10C]

/-- C10 witness: the first parent-0 node is the root, and the node whose
parent id 77 matches no fetched node is attached nowhere. -/
theorem buildTree_spec_witness :
    buildTree c10List = .ok c10A
    ∧ c10C ∉ attachChildren c10List c10A
    ∧ c10C ∉ attachChildren c10List c10B :=
  ⟨rfl,
   (buildTree_spec c10List).2.2 c10C (by decide) (by decide) c10A,
   (buildTree_spec c10List).2.2 c10C (by decide) (by decide) c10B⟩

end GopherMark
